import Mathlib

/-!
Verification development for the nftables-analyzer core
(`src/backend/src/nftables_analyzer`): the rule parser (text and JSON
front ends), the matcher predicates, the evaluator and the redundancy
analyzer, shallowly embedded from the Python source.

Modelling conventions:
* Python strings are processed as `List Char`; `String` appears at the
  API boundary.  All helper functions mirror the concrete behaviour of
  the Python primitives used by the source (`str.strip`, `str.split`,
  `in` substring tests, `int(...)`, `re` patterns specialised to the
  fixed regexes occurring in the source).
* Python exceptions are modelled with `Except`: a function whose body
  can raise is given an `...Exc` variant returning `Except Unit α`
  (every exception that can occur in the modelled bodies is a
  `ValueError`, which is exactly what the source catches), and the
  catching wrapper maps `error` to the source's fallback value.
* The `ipaddress` standard-library fragment used by the source is
  modelled for IPv4 (dotted-quad addresses, `a.b.c.d/len` and
  netmask/hostmask networks with `strict=False` masking).  The claims
  under verification only exercise IPv4 values.
* The diagnostic `trace` list of `EvaluationResult` is not modelled;
  no claim refers to it.
-/

namespace NftablesAnalyzer

/-! ### Python string primitives -/

/-- Python whitespace (`str.strip` default set, also `\s` of `re`). -/
def isPyWS (c : Char) : Bool :=
  c = ' ' || c = '\t' || c = '\n' || c = '\r' || c = '\x0b' || c = '\x0c'

/-- A `\w` character of Python `re` restricted to ASCII input. -/
def isWordChar (c : Char) : Bool :=
  c.isAlphanum || c = '_'

/-- `str.strip()` on a character list. -/
def stripChars (l : List Char) : List Char :=
  ((l.dropWhile isPyWS).reverse.dropWhile isPyWS).reverse

/-- `str.strip()`. -/
def pyStrip (s : String) : String :=
  String.mk (stripChars s.toList)

/-- `str.lower()` on one character (ASCII fragment; every lowered
string in the analyzed code is ASCII). -/
def pyCharLower (c : Char) : Char :=
  if 65 ≤ c.toNat && c.toNat ≤ 90 then Char.ofNat (c.toNat + 32) else c

/-- `str.lower()` (ASCII fragment). -/
def pyLower (s : String) : String :=
  String.mk (s.toList.map pyCharLower)

/-- `l.isPrefixOf`-style check written out for character lists. -/
def startsWithChars : List Char → List Char → Bool
  | [], _ => true
  | _ :: _, [] => false
  | a :: as, b :: bs => a = b && startsWithChars as bs

/-- Python `needle in haystack` for a non-empty needle (substring test). -/
def containsSubChars (hay needle : List Char) : Bool :=
  match hay with
  | [] => startsWithChars needle []
  | _ :: rest => startsWithChars needle hay || containsSubChars rest needle

/-- Python `needle in haystack` on strings. -/
def containsSub (hay needle : String) : Bool :=
  containsSubChars hay.toList needle.toList

/-- Python `s.endswith(t)`. -/
def pyEndsWith (hay needle : List Char) : Bool :=
  startsWithChars needle.reverse hay.reverse

/-- Python `s.split(sep)` for a non-empty separator; the `fuel`
argument (structurally decreasing, initialised to the input length)
bounds the iteration count and is always sufficient because every
step consumes at least one character. -/
def splitOnCharsFuel (sep : List Char) : Nat → List Char → List (List Char)
  | 0, l => [l]
  | _ + 1, [] => [[]]
  | fuel + 1, c :: rest =>
    if 1 ≤ sep.length && startsWithChars sep (c :: rest) then
      [] :: splitOnCharsFuel sep fuel ((c :: rest).drop sep.length)
    else
      match splitOnCharsFuel sep fuel rest with
      | [] => [[c]]
      | part :: parts => (c :: part) :: parts

/-- Python `s.split(sep)` on character lists. -/
def splitOnChars (sep l : List Char) : List (List Char) :=
  splitOnCharsFuel sep l.length l

/-- Python `s.split(sep)` on strings. -/
def pySplit (s sep : String) : List String :=
  (splitOnChars sep.toList s.toList).map String.mk

/-- Python `s.count(c)` for a single character. -/
def countChar (l : List Char) (c : Char) : Nat :=
  l.countP (· = c)

/-- Value of a list of decimal digits. -/
def natOfDigits (l : List Char) : Nat :=
  l.foldl (fun acc c => acc * 10 + (c.toNat - '0'.toNat)) 0

/-- Whether a digit run with single interior underscores is a valid
Python `int()` digit part (`int("1_0") = 10`). -/
def validUnderscoreDigits : List Char → Bool
  | [] => false
  | [c] => c.isDigit
  | c :: d :: rest =>
    if c.isDigit then validUnderscoreDigits (d :: rest)
    else if c = '_' then d.isDigit && validUnderscoreDigits (d :: rest)
    else false

/-- `int(s)` for a decimal string: optional surrounding whitespace,
optional sign, digits with single interior underscores.  `none`
models the `ValueError` raised on malformed input. -/
def pyIntOfString (s : String) : Option Int :=
  let l := stripChars s.toList
  match l with
  | '+' :: rest =>
    if validUnderscoreDigits rest && rest.head? ≠ some '_' then
      some (Int.ofNat (natOfDigits (rest.filter (· ≠ '_'))))
    else none
  | '-' :: rest =>
    if validUnderscoreDigits rest && rest.head? ≠ some '_' then
      some (-(Int.ofNat (natOfDigits (rest.filter (· ≠ '_')))))
    else none
  | _ =>
    if validUnderscoreDigits l && l.head? ≠ some '_' then
      some (Int.ofNat (natOfDigits (l.filter (· ≠ '_'))))
    else none

/-! ### The `ipaddress` fragment (IPv4)

Mirrors `ipaddress.IPv4Address` / `IPv4Network(..., strict=False)`
string parsing as used by `ip_matcher.py` and `rule_evaluator.py`. -/

/-- One dotted-quad octet (`ipaddress._parse_octet`): only decimal
digits, at most three of them, no leading zero, value at most 255. -/
def parseOctet (s : String) : Option Nat :=
  let l := s.toList
  if l.isEmpty then none
  else if ¬ l.all Char.isDigit then none
  else if l.length > 3 then none
  else if l.length > 1 && l.head? = some '0' then none
  else
    let v := natOfDigits l
    if v > 255 then none else some v

/-- `ipaddress.IPv4Address(s)` as an integer
(`ipaddress._ip_int_from_string`): exactly four octets. -/
def ipv4FromString (s : String) : Option Nat :=
  match pySplit s "." with
  | [a, b, c, d] => do
    let a ← parseOctet a
    let b ← parseOctet b
    let c ← parseOctet c
    let d ← parseOctet d
    some (((a * 256 + b) * 256 + c) * 256 + d)
  | _ => none

/-- All-ones 32-bit value. -/
def allOnes32 : Nat := 2 ^ 32 - 1

/-- Count of trailing zero bits of a 32-bit value (32 for zero),
`ipaddress._count_righthand_zero_bits`. -/
def trailingZeros32 (n : Nat) : Nat :=
  go n 32
where
  go : Nat → Nat → Nat
  | _, 0 => 0
  | n, fuel + 1 => if n % 2 = 1 then 0 else if n = 0 then fuel + 1 else go (n / 2) fuel + 1

/-- `ipaddress._prefix_from_ip_int`: the value must be a contiguous
run of ones followed by zeroes; returns the run length. -/
def ipPrefixOfMaskInt (n : Nat) : Option Nat :=
  let tz := trailingZeros32 n
  let plen := 32 - tz
  if n >>> tz = 2 ^ plen - 1 then some plen else none

/-- `IPv4Network._make_netmask` for a string argument: a pure digit
string is a prefix length (bounded by 32, leading zeroes tolerated);
anything else must parse as a dotted netmask or hostmask. -/
def makeNetmask (s : String) : Option Nat :=
  let l := s.toList
  if ¬ l.isEmpty && l.all Char.isDigit then
    let plen := natOfDigits l
    if plen ≤ 32 then some plen else none
  else
    match ipv4FromString s with
    | some n =>
      match ipPrefixOfMaskInt n with
      | some plen => some plen
      | none => ipPrefixOfMaskInt (n ^^^ allOnes32)
    | none => none

/-- Clear the host bits of `addr` for prefix length `plen`
(`addr & mask` in the source; arithmetically `addr - addr % 2^h`). -/
def maskAddr (addr plen : Nat) : Nat :=
  addr / 2 ^ (32 - plen) * 2 ^ (32 - plen)

/-- `ipaddress.ip_network(s, strict=False)` as
`(network address integer, prefix length)`.  A string without `/`
denotes a `/32` host network; with `/` the part after it is a prefix
length or a netmask/hostmask; more than one `/` raises. -/
def ipNetworkFromString (s : String) : Option (Nat × Nat) :=
  match pySplit s "/" with
  | [a] => do
    let addr ← ipv4FromString a
    some (addr, 32)
  | [a, m] => do
    let addr ← ipv4FromString a
    let plen ← makeNetmask m
    some (maskAddr addr plen, plen)
  | _ => none

/-- Broadcast (highest) address of a network. -/
def netBroadcast (net plen : Nat) : Nat :=
  net + (2 ^ (32 - plen) - 1)

/-! ### Matcher (`evaluator/ip_matcher.py`) -/

/-- The body of `IPMatcher.ip_matches` with the `try` block's
`ValueError`s left uncaught (`error ()` marks a raise). -/
def ipMatchesExc (packetIp ruleIp : Option String) : Except Unit Bool :=
  match ruleIp with
  | none => .ok true
  | some rip =>
    match packetIp with
    | none => .ok false
    | some pip =>
      match ipv4FromString pip with
      | none => .error ()
      | some packetAddr =>
        if containsSub rip "/" then
          match ipNetworkFromString rip with
          | none => .error ()
          | some (net, plen) => .ok (maskAddr packetAddr plen == net)
        else
          match ipv4FromString rip with
          | none => .error ()
          | some ruleAddr => .ok (packetAddr == ruleAddr)

/-- `IPMatcher.ip_matches`: the `except ValueError: return False`
wrapper around the body. -/
def ipMatches (packetIp ruleIp : Option String) : Bool :=
  match ipMatchesExc packetIp ruleIp with
  | .ok b => b
  | .error _ => false

/-- The body of `IPMatcher.port_matches` with `ValueError`s left
uncaught: range split (`a-b`, unpacking raises unless exactly two
parts), `int` conversions. -/
def portMatchesExc (packetPort : Option Int) (rulePort : Option String) : Except Unit Bool :=
  match rulePort with
  | none => .ok true
  | some rp =>
    match packetPort with
    | none => .ok false
    | some pp =>
      if containsSub rp "-" then
        match pySplit rp "-" with
        | [s1, s2] =>
          match pyIntOfString s1, pyIntOfString s2 with
          | some a, some b => .ok (a ≤ pp && pp ≤ b)
          | _, _ => .error ()
        | _ => .error ()
      else
        match pyIntOfString rp with
        | some v => .ok (pp == v)
        | none => .error ()

/-- `IPMatcher.port_matches` with its `except ValueError` wrapper. -/
def portMatches (packetPort : Option Int) (rulePort : Option String) : Bool :=
  match portMatchesExc packetPort rulePort with
  | .ok b => b
  | .error _ => false

/-- `IPMatcher.protocol_matches` (no exceptions possible). -/
def protocolMatches (packetProto ruleProto : Option String) : Bool :=
  match ruleProto with
  | none => true
  | some rp =>
    if rp = "any" then true
    else
      match packetProto with
      | none => false
      | some pp => pyLower pp == pyLower rp

/-! ### Data model (`models/rule.py`, `models/query.py`, `models/result.py`) -/

/-- `models.rule.Rule` (pydantic model).  Fields are kept as strings,
as in the source; the `Literal` constraints on `action` and
`protocol` are enforced by `mkRule` below where construction can
fail (the JSON front end). -/
structure Rule where
  action : String
  chain : String
  table : String := "filter"
  family : String := "inet"
  source : Option String := none
  destination : Option String := none
  sport : Option String := none
  dport : Option String := none
  protocol : Option String := none
  line_number : Nat
  raw : Option String := none
  sets_referenced : List String := []
  iif : Option String := none
  oif : Option String := none
deriving DecidableEq, Repr, Inhabited

/-- The `Literal` universe of `Rule.action`. -/
def validActions : List String :=
  ["accept", "drop", "reject", "jump", "return", "counter", "log"]

/-- The `Literal` universe of `Rule.protocol`. -/
def validProtocols : List String :=
  ["tcp", "udp", "icmp", "icmpv6", "ah", "esp", "any"]

/-- Pydantic validation of a `Rule`: `action` and `protocol` must lie
in their `Literal` universes; `error` models the `ValidationError`. -/
def mkRule (action chain table family : String)
    (source destination sport dport protocol : Option String)
    (line_number : Nat) (raw : Option String) : Except Unit Rule :=
  if ¬ validActions.contains action then .error ()
  else
    match protocol with
    | some p =>
      if ¬ validProtocols.contains p then .error ()
      else .ok { action, chain, table, family, source, destination,
                 sport, dport, protocol, line_number, raw }
    | none =>
      .ok { action, chain, table, family, source, destination,
            sport, dport, protocol, line_number, raw }

/-- `models.query.Query` after successful pydantic validation. -/
structure Query where
  src_ip : Option String := none
  dst_ip : Option String := none
  src_port : Option Int := none
  dst_port : Option Int := none
  protocol : Option String := none
  direction : String := "in"
deriving DecidableEq, Repr, Inhabited

/-- `Query` construction with pydantic validation: ports must lie in
`1..65535` (`ge=1, le=65535`), the protocol validator lower-cases and
requires membership in `{tcp, udp, icmp, any}`, `direction` is a
`Literal["in", "out", "forward"]`.  `error` carries the message. -/
def mkQuery (src_ip dst_ip : Option String) (src_port dst_port : Option Int)
    (protocol : Option String) (direction : String) : Except String Query :=
  match src_port with
  | some p =>
    if p < 1 || p > 65535 then .error "src_port out of range 1-65535"
    else mkQueryPorts src_ip dst_ip (some p) dst_port protocol direction
  | none => mkQueryPorts src_ip dst_ip none dst_port protocol direction
where
  mkQueryPorts (src_ip dst_ip : Option String) (src_port dst_port : Option Int)
      (protocol : Option String) (direction : String) : Except String Query :=
    match dst_port with
    | some p =>
      if p < 1 || p > 65535 then .error "dst_port out of range 1-65535"
      else mkQueryProto src_ip dst_ip src_port (some p) protocol direction
    | none => mkQueryProto src_ip dst_ip src_port none protocol direction
  mkQueryProto (src_ip dst_ip : Option String) (src_port dst_port : Option Int)
      (protocol : Option String) (direction : String) : Except String Query :=
    match protocol with
    | some v =>
      let lowered := pyLower v
      if ¬ ["tcp", "udp", "icmp", "any"].contains lowered then
        .error ("Invalid protocol: " ++ lowered)
      else mkQueryDir src_ip dst_ip src_port dst_port (some lowered) direction
    | none => mkQueryDir src_ip dst_ip src_port dst_port none direction
  mkQueryDir (src_ip dst_ip : Option String) (src_port dst_port : Option Int)
      (protocol : Option String) (direction : String) : Except String Query :=
    if ¬ ["in", "out", "forward"].contains direction then
      .error "Invalid direction"
    else .ok { src_ip, dst_ip, src_port, dst_port, protocol, direction }

/-- `models.result.Conflict`. -/
structure Conflict where
  rule1 : Rule
  rule2 : Rule
  reason : String
deriving DecidableEq, Repr

/-- `models.result.EvaluationResult` (without the diagnostic `trace`). -/
structure EvaluationResult where
  verdict : String
  matched_rules : List Rule := []
  conflicts : List Conflict := []
  explanation : String
deriving DecidableEq, Repr

/-! ### Evaluator (`evaluator/rule_evaluator.py`) -/

/-- `RuleEvaluator._rule_matches_query`. -/
def ruleMatchesQuery (rule : Rule) (q : Query) : Bool :=
  ipMatches q.src_ip rule.source &&
  portMatches q.src_port rule.sport &&
  ipMatches q.dst_ip rule.destination &&
  portMatches q.dst_port rule.dport &&
  protocolMatches q.protocol rule.protocol

/-- `RuleEvaluator._get_chain_for_direction`. -/
def getChainForDirection (direction : String) : String :=
  if direction = "in" then "input"
  else if direction = "out" then "output"
  else if direction = "forward" then "forward"
  else "input"

/-- The rules relevant to a query: same chain (case-insensitively) as
the one the direction maps to, in source order. -/
def relevantRules (rules : List Rule) (q : Query) : List Rule :=
  rules.filter (fun r => pyLower r.chain == getChainForDirection q.direction)

/-- The scanning loop of `RuleEvaluator.evaluate`: collect matching
rules in order, record the action of each match, and stop at the
first match whose action is neither `jump` nor `return`.  Returns the
matched rules and the last recorded action. -/
def scanRules (q : Query) : List Rule → List Rule × Option String
  | [] => ([], none)
  | r :: rest =>
    if ruleMatchesQuery r q then
      if r.action = "jump" || r.action = "return" then
        let (ms, lastAction) := scanRules q rest
        (r :: ms, some (lastAction.getD r.action))
      else ([r], some r.action)
    else scanRules q rest

/-- `RuleEvaluator._detect_conflicts`, folded over the adjacent pairs
of the matched list: a differing adjacent pair appends a `Conflict`,
sets the verdict to `CONFLICT` and rewrites the explanation. -/
def detectConflicts : List (Rule × Rule) → EvaluationResult → EvaluationResult
  | [], res => res
  | (r1, r2) :: rest, res =>
    if r1.action ≠ r2.action then
      let reason := "Rule " ++ toString r1.line_number ++ " (" ++ r1.action ++
        ") conflicts with rule " ++ toString r2.line_number ++ " (" ++ r2.action ++ ")"
      detectConflicts rest
        { res with
          conflicts := res.conflicts ++ [⟨r1, r2, reason⟩],
          verdict := "CONFLICT",
          explanation := "Conflicting actions: " ++ r1.action ++ " vs " ++ r2.action }
    else detectConflicts rest res

/-- The adjacent pairs `(rules[i], rules[i+1])`. -/
def adjacentPairs (l : List Rule) : List (Rule × Rule) :=
  l.zip l.tail

/-- Line number of the last matched rule (`matched_rules[-1].line_number`);
only evaluated on non-empty lists. -/
def lastLineNumber (l : List Rule) : Nat :=
  (l.getLast?.map Rule.line_number).getD 0

/-- The verdict-assignment tail of `RuleEvaluator.evaluate`, applied
once the scan produced a non-empty matched list: conflicts are
detected first (for more than one match), then the verdict and
explanation are assigned from the last recorded action, overwriting
whatever conflict detection wrote into them. -/
def assignVerdict (matched : List Rule) (lastAction : Option String)
    (res : EvaluationResult) : EvaluationResult :=
  let res := { res with matched_rules := matched }
  let res := if matched.length > 1 then detectConflicts (adjacentPairs matched) res else res
  if lastAction = some "accept" then
    { res with verdict := "ALLOW",
               explanation := "Traffic allowed by rule " ++ toString (lastLineNumber matched) }
  else if lastAction = some "drop" || lastAction = some "reject" then
    { res with verdict := "BLOCK",
               explanation := "Traffic blocked by rule " ++ toString (lastLineNumber matched) }
  else
    { res with verdict := "NO_MATCH",
               explanation := "Matched jump/return rules only" }

/-- `RuleEvaluator.evaluate`. -/
def evaluate (rules : List Rule) (q : Query) : EvaluationResult :=
  let chainName := getChainForDirection q.direction
  let relevant := relevantRules rules q
  let (matched, lastAction) := scanRules q relevant
  if matched.isEmpty then
    { verdict := "NO_MATCH",
      explanation := "No rules matched for chain \x27" ++ chainName ++ "\x27" }
  else
    assignVerdict matched lastAction
      { verdict := "NO_MATCH", explanation := "No matching rules found" }

/-! ### Redundancy analyzer (`RuleEvaluator.find_redundant_rules`) -/

/-- `RuleEvaluator._ip_contains` (the `except ValueError: return False`
is folded into the `Option` results of the parsers). -/
def ipContains (general specific : String) : Bool :=
  if containsSub general "/" then
    match ipNetworkFromString general with
    | none => false
    | some (gnet, gplen) =>
      if containsSub specific "/" then
        match ipNetworkFromString specific with
        | none => false
        | some (snet, splen) =>
          -- `specific_net.subnet_of(general_net)`
          gnet ≤ snet && netBroadcast snet splen ≤ netBroadcast gnet gplen
      else
        match ipv4FromString specific with
        | none => false
        | some saddr => maskAddr saddr gplen == gnet
  else general == specific

/-- Python truthiness of an optional string field. -/
def optTruthy : Option String → Bool
  | none => false
  | some s => s ≠ ""

/-- `RuleEvaluator._rule_shadows`. -/
def ruleShadows (general specific : Rule) : Bool :=
  if general.action ≠ specific.action then false
  else
    (general.source = none ||
      (optTruthy specific.source && ipContains (general.source.getD "") (specific.source.getD ""))) &&
    (general.destination = none ||
      (optTruthy specific.destination && ipContains (general.destination.getD "") (specific.destination.getD ""))) &&
    (general.sport = none || general.sport == specific.sport) &&
    (general.dport = none || general.dport == specific.dport) &&
    (general.protocol = none || general.protocol == specific.protocol)

/-- `RuleEvaluator.find_redundant_rules`: ordered pairs with the first
rule earlier in the list, same chain, first shadows second. -/
def findRedundantRules : List Rule → List (Rule × Rule)
  | [] => []
  | r :: rest =>
    ((rest.filter (fun r2 => r.chain == r2.chain && ruleShadows r r2)).map (fun r2 => (r, r2)))
      ++ findRedundantRules rest

/-! ### Parse result containers (`parser/rule_parser.py`)

Python dicts (3.7+) preserve insertion order and update keys in
place; the `tables`, `chains` and `sets` dicts are modelled as
insertion-ordered association lists with in-place update. -/

/-- Association-list lookup (first binding wins, as in a dict). -/
def assocGet {α : Type} (l : List (String × α)) (k : String) : Option α :=
  match l with
  | [] => none
  | (k', v) :: rest => if k' = k then some v else assocGet rest k

/-- Dict-style assignment: replace an existing binding in place,
otherwise append. -/
def assocSet {α : Type} (l : List (String × α)) (k : String) (v : α) : List (String × α) :=
  match l with
  | [] => [(k, v)]
  | (k', v') :: rest => if k' = k then (k, v) :: rest else (k', v') :: assocSet rest k v

/-- `models.rule.SetDefinition`. -/
structure SetDefinition where
  name : String
  table : String
  family : String := "inet"
  type : String
  flags : List String := []
  elements : List String := []
  line_number : Nat := 0
deriving DecidableEq, Repr, Inhabited

/-- `models.rule.Chain`. -/
structure Chain where
  name : String
  table : String := "filter"
  family : String := "inet"
  type : Option String := none
  hook : Option String := none
  priority : Option String := none
  policy : String := "accept"
  rules : List Rule := []
  line_number : Nat := 0
deriving DecidableEq, Repr, Inhabited

/-- `models.rule.Table`. -/
structure Table where
  name : String := "filter"
  family : String := "inet"
  chains : List (String × Chain) := []
  sets : List (String × SetDefinition) := []
  line_number : Nat := 0
deriving DecidableEq, Repr, Inhabited

/-- `Table.add_chain`. -/
def Table.addChain (t : Table) (c : Chain) : Table :=
  { t with chains := assocSet t.chains c.name c }

/-- `Table.add_set`. -/
def Table.addSet (t : Table) (s : SetDefinition) : Table :=
  { t with sets := assocSet t.sets s.name s }

/-- `parser.rule_parser.ParseResult`. -/
structure ParseResult where
  tables : List (String × Table) := []
  rules : List Rule := []
deriving DecidableEq, Repr, Inhabited

/-- `ParseResult.add_table` on the stored tables: a new key stores the
table; an existing key merges the new table's chains and sets into
the stored one.  (Whether the caller's `current_table` aliases the
stored entry is tracked separately by the text parser state.) -/
def ParseResult.addTable (pr : ParseResult) (t : Table) : ParseResult :=
  let key := t.family ++ "_" ++ t.name
  match assocGet pr.tables key with
  | none => { pr with tables := assocSet pr.tables key t }
  | some existing =>
    let merged := t.chains.foldl (fun acc (nc : String × Chain) => Table.addChain acc nc.2) existing
    let merged := t.sets.foldl (fun acc (ns : String × SetDefinition) => Table.addSet acc ns.2) merged
    { pr with tables := assocSet pr.tables key merged }

/-- Stable insertion into a list sorted by ascending line number. -/
def insertByLine (r : Rule) : List Rule → List Rule
  | [] => [r]
  | x :: xs =>
    if x.line_number ≤ r.line_number then x :: insertByLine r xs
    else r :: x :: xs

/-- `sorted(rules, key=lambda r: r.line_number)` (stable). -/
def sortByLineNumber (l : List Rule) : List Rule :=
  l.foldl (fun acc r => insertByLine r acc) []

/-- `ParseResult.get_all_rules`: the rules of every chain of every
stored table, flattened and sorted by line number.  Rules that only
live in the flat `rules` list are not visited. -/
def ParseResult.getAllRules (pr : ParseResult) : List Rule :=
  sortByLineNumber
    ((pr.tables.map (fun kt => (kt.2.chains.map (fun kc => kc.2.rules)).flatten)).flatten)

/-! ### JSON values and the Python operations on them

`json.loads` output is modelled by `Json`; the result of `loads`
itself is an `Except` argument (its `JSONDecodeError` on invalid
syntax propagates to the caller of the parser).  The Python container
operations `in`, indexing and iteration raise `TypeError` on values
that do not support them; `error` marks such a raise. -/

inductive Json where
  | null : Json
  | bool : Bool → Json
  | num : Int → Json
  | str : String → Json
  | arr : List Json → Json
  | obj : List (String × Json) → Json
deriving Inhabited, Repr

/-- `key in container`: key lookup on dicts, substring test on
strings, element equality on lists; `TypeError` otherwise. -/
def pyContains (v : Json) (key : String) : Except Unit Bool :=
  match v with
  | .obj fields => .ok ((assocGet fields key).isSome)
  | .str s => .ok (containsSub s key)
  | .arr items =>
    .ok (items.any (fun j => match j with | .str s => s == key | _ => false))
  | _ => .error ()

/-- `container[key]` for a string key: dict lookup (`KeyError` if
missing); `TypeError` on anything else. -/
def pyIndex (v : Json) (key : String) : Except Unit Json :=
  match v with
  | .obj fields =>
    match assocGet fields key with
    | some x => .ok x
    | none => .error ()
  | _ => .error ()

/-- `for x in container`: list elements, string characters (as
one-character strings), dict keys; `TypeError` otherwise. -/
def pyIter (v : Json) : Except Unit (List Json) :=
  match v with
  | .arr items => .ok items
  | .str s => .ok (s.toList.map (fun c => .str (String.mk [c])))
  | .obj fields => .ok (fields.map (fun kv => .str kv.1))
  | _ => .error ()

/-- `dict.get(key)` (`AttributeError` on non-dicts). -/
def pyGet (v : Json) (key : String) : Except Unit (Option Json) :=
  match v with
  | .obj fields => .ok (assocGet fields key)
  | _ => .error ()

mutual

/-- `repr` of a JSON-shaped Python value (only needed for the
`str(right)` coercion on containers; scalar cases are exact). -/
def pyRepr : Json → String
  | .null => "None"
  | .bool b => if b then "True" else "False"
  | .num n => toString n
  | .str s => "\x27" ++ s ++ "\x27"
  | .arr items => "[" ++ String.intercalate ", " (pyReprList items) ++ "]"
  | .obj fields => "\x7b" ++ String.intercalate ", " (pyReprFields fields) ++ "\x7d"

/-- `repr` of the elements of a Python list. -/
def pyReprList : List Json → List String
  | [] => []
  | x :: xs => pyRepr x :: pyReprList xs

/-- `repr` of the entries of a Python dict. -/
def pyReprFields : List (String × Json) → List String
  | [] => []
  | (k, v) :: xs => ("\x27" ++ k ++ "\x27: " ++ pyRepr v) :: pyReprFields xs

end

/-- `str(x)` of a JSON-shaped Python value. -/
def pyStr : Json → String
  | .str s => s
  | .null => "None"
  | .bool b => if b then "True" else "False"
  | .num n => toString n
  | .arr items => pyRepr (.arr items)
  | .obj fields => pyRepr (.obj fields)

mutual

/-- Compact `json.dumps` (default separators), used for `Rule.raw`. -/
def pyJsonDumps : Json → String
  | .null => "null"
  | .bool b => if b then "true" else "false"
  | .num n => toString n
  | .str s => "\"" ++ s ++ "\""
  | .arr items => "[" ++ String.intercalate ", " (pyJsonDumpsList items) ++ "]"
  | .obj fields => "\x7b" ++ String.intercalate ", " (pyJsonDumpsFields fields) ++ "\x7d"

/-- `json.dumps` of the elements of a list. -/
def pyJsonDumpsList : List Json → List String
  | [] => []
  | x :: xs => pyJsonDumps x :: pyJsonDumpsList xs

/-- `json.dumps` of the entries of a dict. -/
def pyJsonDumpsFields : List (String × Json) → List String
  | [] => []
  | (k, v) :: xs => ("\"" ++ k ++ "\": " ++ pyJsonDumps v) :: pyJsonDumpsFields xs

end

/-! ### JSON front end (`RuleParser._parse_json_rule`,
`RuleParser.parse_json_hierarchical`, `RuleParser.parse_json`) -/

/-- State of the match-extraction loop of `_parse_json_rule`. -/
structure JsonMatchFields where
  source : Option String := none
  destination : Option String := none
  sport : Option String := none
  dport : Option String := none
  protocol : Option String := none

/-- One step of the action-extraction loop: the `if/elif` keyword
scan over one `expr` entry, keeping the previous action when none of
the verdict keys is present (so the last verdict-bearing entry wins). -/
def jsonActionStep (action : String) (expr : Json) : Except Unit String := do
  if (← pyContains expr "accept") then pure "accept"
  else if (← pyContains expr "drop") then pure "drop"
  else if (← pyContains expr "reject") then pure "reject"
  else if (← pyContains expr "jump") then pure "jump"
  else if (← pyContains expr "return") then pure "return"
  else pure action

/-- Python `x == "s"` for an optional value from `dict.get`: true
exactly when the value is that string. -/
def jsonGetEqStr (v : Option Json) (s : String) : Bool :=
  match v with
  | some (.str t) => t == s
  | _ => false

/-- One step of the match-extraction loop over one `expr` entry. -/
def jsonMatchStep (fields : JsonMatchFields) (expr : Json) : Except Unit JsonMatchFields := do
  if (← pyContains expr "match") then
    let m ← pyIndex expr "match"
    if (← pyContains m "left") then
      if (← pyContains m "right") then
        let left ← pyIndex m "left"
        let right ← pyIndex m "right"
        if (← pyContains left "payload") then
          let payload ← pyIndex left "payload"
          let fieldVal ← pyGet payload "field"
          if jsonGetEqStr fieldVal "saddr" then
            pure { fields with source := some (pyStr right) }
          else if jsonGetEqStr fieldVal "daddr" then
            pure { fields with destination := some (pyStr right) }
          else if jsonGetEqStr fieldVal "sport" then
            pure { fields with sport := some (pyStr right) }
          else if jsonGetEqStr fieldVal "dport" then
            pure { fields with dport := some (pyStr right) }
          else if jsonGetEqStr fieldVal "protocol" then
            pure { fields with protocol := some (pyStr right) }
          else pure fields
        else pure fields
      else pure fields
    else pure fields
  else pure fields

/-- `field = some (.str s)` comparison helper for `rule_data.get`. -/
def jsonGetStrOr (ruleData : Json) (key fallback : String) : Except Unit String := do
  match (← pyGet ruleData key) with
  | none => pure fallback
  | some (.str s) => pure s
  | some _ => .error ()  -- pydantic rejects a non-string value

/-- `RuleParser._parse_json_rule`: the whole body runs under
`try/except Exception`, so any raise (TypeError on a malformed
object, pydantic ValidationError on a bad field) yields `none` and
the object is skipped. -/
def parseJsonRule (ruleData : Json) (lineNumber : Nat) : Option Rule :=
  (do
    let exprsOpt : Option (List Json) ←
      if (← pyContains ruleData "expr") then do
        pure (some (← pyIter (← pyIndex ruleData "expr")))
      else pure none
    let action ←
      match exprsOpt with
      | some exprs => exprs.foldlM jsonActionStep "accept"
      | none => pure "accept"
    let fields ←
      match exprsOpt with
      | some exprs => exprs.foldlM jsonMatchStep (⟨none, none, none, none, none⟩ : JsonMatchFields)
      | none => pure (⟨none, none, none, none, none⟩ : JsonMatchFields)
    let chain ← jsonGetStrOr ruleData "chain" "input"
    let table ← jsonGetStrOr ruleData "table" "filter"
    mkRule action chain table "inet" fields.source fields.destination
      fields.sport fields.dport fields.protocol lineNumber
      (some (pyJsonDumps ruleData))).toOption

/-- The per-item loop bodies of `parse_json_hierarchical`: the state
is the accumulated flat rule list and the next line number
(incremented only when an object parses). -/
def jsonNftablesStep (st : List Rule × Nat) (item : Json) : Except Unit (List Rule × Nat) := do
  if (← pyContains item "rule") then
    let ruleData ← pyIndex item "rule"
    match parseJsonRule ruleData st.2 with
    | some rule => pure (st.1 ++ [rule], st.2 + 1)
    | none => pure st
  else pure st

/-- Loop body for the bare-list input shape. -/
def jsonListStep (st : List Rule × Nat) (ruleData : Json) : List Rule × Nat :=
  match parseJsonRule ruleData st.2 with
  | some rule => (st.1 ++ [rule], st.2 + 1)
  | none => st

/-- `RuleParser.parse_json_hierarchical`.  The argument is the
outcome of `json.loads` on the input string: a decode error
propagates to the caller.  A `TypeError` from the containment test or
indexing on an unsupported top-level value also propagates.  Any
other input shape — including a dict without an `"nftables"` key —
produces an (empty) `ParseResult` without error.  Rules are appended
only to the flat `rules` list; `tables` is never populated. -/
def parseJsonHierarchical (loadsResult : Except Unit Json) : Except String ParseResult :=
  match loadsResult with
  | .error _ => .error "JSONDecodeError"
  | .ok data =>
    match pyContains data "nftables" with
    | .error _ => .error "TypeError"
    | .ok true =>
      match pyIndex data "nftables" with
      | .error _ => .error "TypeError"
      | .ok items =>
        match pyIter items with
        | .error _ => .error "TypeError"
        | .ok list =>
          match list.foldlM jsonNftablesStep ([], 1) with
          | .error _ => .error "TypeError"
          | .ok (rules, _) => .ok { rules := rules }
    | .ok false =>
      match data with
      | .arr items =>
        let (rules, _) := items.foldl jsonListStep ([], 1)
        .ok { rules := rules }
      | _ => .ok {}

/-- `RuleParser.parse_json`: the hierarchical parse followed by
`get_all_rules` on its result. -/
def parseJson (loadsResult : Except Unit Json) : Except String (List Rule) :=
  (parseJsonHierarchical loadsResult).map ParseResult.getAllRules

/-! ### Text front end: the fixed regular expressions

Each `re` pattern occurring in `rule_parser.py` is implemented
directly as a function on character lists.  `re.match` anchors at the
start of the (stripped) line; `re.search` scans for the leftmost
position where the pattern applies. -/

/-- Expect a literal at the head, returning the remainder. -/
def dropLiteral : List Char → List Char → Option (List Char)
  | [], l => some l
  | _ :: _, [] => none
  | a :: as, b :: bs => if a = b then dropLiteral as bs else none

/-- `\s+` then the remainder. -/
def takeWSRun (l : List Char) : Option (List Char) :=
  let ws := l.takeWhile isPyWS
  if ws.isEmpty then none else some (l.drop ws.length)

/-- `(\w+)` capture and remainder. -/
def takeWordRun (l : List Char) : Option (String × List Char) :=
  let w := l.takeWhile isWordChar
  if w.isEmpty then none else some (String.mk w, l.drop w.length)

/-- A `[\w\-]` character. -/
def isWordDash (c : Char) : Bool :=
  isWordChar c || c = '-'

/-- `([\w\-]+)` capture and remainder. -/
def takeWordDashRun (l : List Char) : Option (String × List Char) :=
  let w := l.takeWhile isWordDash
  if w.isEmpty then none else some (String.mk w, l.drop w.length)

/-- `re.match(r"table\s+(\w+)\s+(\w+)\s*\{?", line)`: family and name. -/
def reTable (l : List Char) : Option (String × String) := do
  let l ← dropLiteral "table".toList l
  let l ← takeWSRun l
  let (family, l) ← takeWordRun l
  let l ← takeWSRun l
  let (name, _) ← takeWordRun l
  some (family, name)

/-- `re.match(r"set\s+([\w\-]+)\s*\{?", line)`. -/
def reSetDecl (l : List Char) : Option String := do
  let l ← dropLiteral "set".toList l
  let l ← takeWSRun l
  let (name, _) ← takeWordDashRun l
  some name

/-- `re.match(r"chain\s+([\w\-]+)\s*\{?", line)`. -/
def reChain (l : List Char) : Option String := do
  let l ← dropLiteral "chain".toList l
  let l ← takeWSRun l
  let (name, _) ← takeWordDashRun l
  some name

/-- The optional `(?:policy\s+(\w+);)?` tail of the chain-type line. -/
def rePolicyOpt (l : List Char) : Option String := do
  let l := l.dropWhile isPyWS
  let l ← dropLiteral "policy".toList l
  let l ← takeWSRun l
  let (w, l) ← takeWordRun l
  match l with
  | ';' :: _ => some w
  | _ => none

/-- `re.match(r"type\s+(\w+)\s+hook\s+(\w+)\s+priority\s+([^;]+);\s*(?:policy\s+(\w+);)?", line)`:
type, hook, priority and optional policy.  The `\s+([^;]+)` boundary
backtracks one whitespace character into the capture when the
remainder up to `;` would otherwise be empty. -/
def reTypeLine (l : List Char) : Option (String × String × String × Option String) := do
  let l ← dropLiteral "type".toList l
  let l ← takeWSRun l
  let (t, l) ← takeWordRun l
  let l ← takeWSRun l
  let l ← dropLiteral "hook".toList l
  let l ← takeWSRun l
  let (h, l) ← takeWordRun l
  let l ← takeWSRun l
  let l ← dropLiteral "priority".toList l
  let ws := l.takeWhile isPyWS
  if ws.isEmpty then none
  else
    let after := l.drop ws.length
    let v := after.takeWhile (· ≠ ';')
    if v.isEmpty then
      -- the run up to `;` is pure whitespace: `[^;]+` backtracks to
      -- take the last whitespace character, if any remains for `\s+`
      if ws.length ≥ 2 then
        match after with
        | ';' :: tail => some (t, h, String.mk [ws.getLastD ' '], rePolicyOpt tail)
        | _ => none
      else none
    else
      match after.drop v.length with
      | ';' :: tail => some (t, h, String.mk v, rePolicyOpt tail)
      | _ => none

/-- `re.match(r"type\s+(.+)", line)` inside a set block. -/
def reSetType (l : List Char) : Option String := do
  let l ← dropLiteral "type".toList l
  let l ← takeWSRun l
  if l.isEmpty then none else some (String.mk l)

/-- `re.match(r"flags\s+(.+)", line)` inside a set block. -/
def reSetFlags (l : List Char) : Option String := do
  let l ← dropLiteral "flags".toList l
  let l ← takeWSRun l
  if l.isEmpty then none else some (String.mk l)

/-- `re.match(r"elements\s*=\s*\{(.+)\}?", line)`: everything after
the opening brace (the optional trailing `\}?` matches empty after a
greedy `(.+)`). -/
def reSetElements (l : List Char) : Option String := do
  let l ← dropLiteral "elements".toList l
  let l := l.dropWhile isPyWS
  let l ← dropLiteral "=".toList l
  let l := l.dropWhile isPyWS
  let l ← dropLiteral "\x7b".toList l
  if l.isEmpty then none else some (String.mk l)

/-- A `[^,\s\}]` character (the bare-token class of the element
tokenizer). -/
def isBareTokenChar (c : Char) : Bool :=
  ¬ (c = ',' || isPyWS c || c = '\x7d')

/-- `re.findall(r"\x22([^\x22]+)\x22|([^,\s\}]+)", s)`: quoted or bare
tokens, leftmost and non-overlapping, quoted branch preferred. -/
def findallQuotedBareFuel : Nat → List Char → List String
  | 0, _ => []
  | _ + 1, [] => []
  | fuel + 1, '"' :: rest =>
    let inner := rest.takeWhile (· ≠ '"')
    if ¬ inner.isEmpty && (rest.drop inner.length).head? = some '"' then
      String.mk inner :: findallQuotedBareFuel fuel (rest.drop (inner.length + 1))
    else
      -- `"` itself is in the bare class, so the bare alternative
      -- matches a maximal run starting at the quote
      let run := rest.takeWhile isBareTokenChar
      String.mk ('"' :: run) :: findallQuotedBareFuel fuel (rest.drop run.length)
  | fuel + 1, c :: rest =>
    if isBareTokenChar c then
      let run := rest.takeWhile isBareTokenChar
      String.mk (c :: run) :: findallQuotedBareFuel fuel (rest.drop run.length)
    else findallQuotedBareFuel fuel rest

/-- The tokenizer on a whole list (the fuel, initialised to the input
length, is always sufficient: every step consumes a character). -/
def findallQuotedBare (l : List Char) : List String :=
  findallQuotedBareFuel l.length l

/-- The token filter applied to every `findall` hit: drop empty and
lone-brace tokens, strip the rest. -/
def filterElementTokens (tokens : List String) : List String :=
  (tokens.filter (fun e => e ≠ "" && e ≠ "\x7b" && e ≠ "\x7d")).map pyStrip

/-- `re.findall(r"@([\w\-]+)", line)` (fuel-structured as above). -/
def findAtRefsFuel : Nat → List Char → List String
  | 0, _ => []
  | _ + 1, [] => []
  | fuel + 1, '@' :: rest =>
    let run := rest.takeWhile isWordDash
    if run.isEmpty then findAtRefsFuel fuel rest
    else String.mk run :: findAtRefsFuel fuel (rest.drop run.length)
  | fuel + 1, _ :: rest => findAtRefsFuel fuel rest

/-- The referenced set names, in order of occurrence. -/
def findAtRefs (l : List Char) : List String :=
  findAtRefsFuel l.length l

/-- `list(set(xs))` where the claims' inputs have at most one distinct
element, so the (hash-dependent) ordering of larger Python sets does
not matter: first-occurrence deduplication. -/
def dedupFirst (l : List String) : List String :=
  l.foldl (fun acc s => if acc.contains s then acc else acc ++ [s]) []

/-- Value pattern `([\d\./a-fA-F:]+|\@[\w\-]+)` of the address
regexes. -/
def isAddrValChar (c : Char) : Bool :=
  c.isDigit || c = '.' || c = '/' || c = ':' ||
  ('a' ≤ c && c ≤ 'f') || ('A' ≤ c && c ≤ 'F')

/-- `@`-reference alternative of the value patterns. -/
def atRefValue (l : List Char) : Option String :=
  match l with
  | '@' :: rest =>
    let run := rest.takeWhile isWordDash
    if run.isEmpty then none else some (String.mk ('@' :: run))
  | _ => none

/-- `\s+` then an address-class run or an `@`-reference. -/
def addrValueAfter (l : List Char) : Option String := do
  let l ← takeWSRun l
  let run := l.takeWhile isAddrValChar
  if ¬ run.isEmpty then some (String.mk run) else atRefValue l

/-- `\s+` then `\d+(?:-\d+)?` or an `@`-reference. -/
def portValueAfter (l : List Char) : Option String := do
  let l ← takeWSRun l
  let ds := l.takeWhile Char.isDigit
  if ¬ ds.isEmpty then
    match l.drop ds.length with
    | '-' :: r3 =>
      let ds2 := r3.takeWhile Char.isDigit
      if ds2.isEmpty then some (String.mk ds)
      else some (String.mk (ds ++ '-' :: ds2))
    | _ => some (String.mk ds)
  else atRefValue l

/-- `\s+` then `[\w\-]+` or an `@`-reference. -/
def ifaceValueAfter (l : List Char) : Option String := do
  let l ← takeWSRun l
  let run := l.takeWhile isWordDash
  if ¬ run.isEmpty then some (String.mk run) else atRefValue l

/-- `re.search` for `keyword` followed by a value: leftmost keyword
occurrence whose suffix completes the pattern.  (The optional
`(?:ip|ip6)?\s*` that precedes `saddr`/`daddr` in the source patterns
never changes the captured value, only the match start.) -/
def searchKV (kw : List Char) (valueAfter : List Char → Option String) :
    List Char → Option String
  | [] => none
  | c :: rest =>
    match dropLiteral kw (c :: rest) with
    | some suffix =>
      match valueAfter suffix with
      | some v => some v
      | none => searchKV kw valueAfter rest
    | none => searchKV kw valueAfter rest

/-! ### Text front end: `RuleParser._parse_text_rule` -/

/-- The action-keyword scan of `_parse_text_rule`, including the
fallback that drops lines mentioning none of the protocol/interface
keywords.  `none` means the line is not a rule. -/
def textRuleAction (ls : List Char) : Option String :=
  if containsSubChars ls " accept".toList then some "accept"
  else if containsSubChars ls " drop".toList then some "drop"
  else if containsSubChars ls " reject".toList then some "reject"
  else if containsSubChars ls " jump ".toList then some "jump"
  else if containsSubChars ls " return".toList then some "return"
  else if containsSubChars ls " counter ".toList || pyEndsWith ls "counter".toList then
    some "counter"
  else if containsSubChars ls " log ".toList then some "log"
  else if ["tcp", "udp", "icmp", "ip", "iif", "oif", "ct"].any
      (fun kw => containsSubChars ls kw.toList) then
    some "accept"
  else none

/-- The protocol-keyword scan of `_parse_text_rule`. -/
def textRuleProtocol (ls : List Char) : Option String :=
  if containsSubChars ls "tcp ".toList || containsSubChars ls " tcp".toList then some "tcp"
  else if containsSubChars ls "udp ".toList || containsSubChars ls " udp".toList then some "udp"
  else if containsSubChars ls "icmp ".toList || containsSubChars ls " icmp".toList then some "icmp"
  else if containsSubChars ls "icmpv6 ".toList then some "icmpv6"
  else if containsSubChars ls " ah ".toList || containsSubChars ls " ah".toList then some "ah"
  else if containsSubChars ls " esp ".toList || containsSubChars ls " esp".toList then some "esp"
  else none

/-- `RuleParser._parse_text_rule`.  The surrounding
`try/except Exception` never fires for the values produced here (all
extracted actions and protocols lie in the `Literal` universes), so
the only `none` results are the explicit skips. -/
def parseTextRule (line : String) (table chain family : String) (lineNumber : Nat) :
    Option Rule :=
  let ls := stripChars line.toList
  let lineStripped := String.mk ls
  if startsWithChars "type ".toList ls || lineStripped = "\x7d" || lineStripped = "\x7b" then none
  else
    match textRuleAction ls with
    | none => none
    | some action =>
      some {
        action,
        chain,
        table,
        family,
        source := searchKV "saddr".toList addrValueAfter ls,
        destination := searchKV "daddr".toList addrValueAfter ls,
        sport := searchKV "sport".toList portValueAfter ls,
        dport := searchKV "dport".toList portValueAfter ls,
        protocol := textRuleProtocol ls,
        line_number := lineNumber,
        raw := some lineStripped,
        iif := searchKV "iif".toList ifaceValueAfter ls,
        oif := searchKV "oif".toList ifaceValueAfter ls }

/-! ### Text front end: `RuleParser.parse_text_hierarchical`

The Python loop mutates a `current_table` object that usually aliases
the entry stored in `result.tables`; after a duplicate `table` line,
however, `add_table` merges into the stored entry while
`current_table` keeps pointing at the new, unstored object — the
state records this with `curStored`.  `current_chain` always aliases
an entry of `current_table.chains`, so it is tracked by name and
every mutation is written through to the table (and, when stored, to
the result). -/

/-- The mutable state of the text-parsing loop. -/
structure TextState where
  result : ParseResult := {}
  curTable : Option Table := none
  curStored : Bool := false
  curChain : Option String := none
  curSet : Option SetDefinition := none
  inSetBlock : Bool := false
  setElements : List String := []
  braceDepth : Int := 0
deriving Repr, Inhabited

/-- Write an updated `current_table` object back, mirroring it into
the stored tables when it aliases a stored entry. -/
def writeCurTable (st : TextState) (t : Table) : TextState :=
  if st.curStored then
    { st with
      curTable := some t,
      result := { st.result with
                  tables := assocSet st.result.tables (t.family ++ "_" ++ t.name) t } }
  else { st with curTable := some t }

/-- Apply a mutation to the `current_chain` object (a no-op when no
chain or table is current, which the source never reaches). -/
def updateCurChain (st : TextState) (f : Chain → Chain) : TextState :=
  match st.curTable, st.curChain with
  | some t, some cn =>
    match assocGet t.chains cn with
    | some c => writeCurTable st { t with chains := assocSet t.chains cn (f c) }
    | none => st
  | _, _ => st

/-- Handle a `table <family> <name> {` line. -/
def handleTableLine (st : TextState) (family name : String) (lineNumber : Nat) : TextState :=
  let t : Table := { name, family, line_number := lineNumber }
  let key := family ++ "_" ++ name
  let isNew := (assocGet st.result.tables key).isNone
  { st with
    result := st.result.addTable t,
    curTable := some t,
    curStored := isNew,
    curChain := none,
    curSet := none,
    inSetBlock := false }

/-- Handle a line while inside a set block. -/
def handleSetBlockLine (st : TextState) (lchars : List Char) (cs : SetDefinition) : TextState :=
  match reSetType lchars with
  | some g => { st with curSet := some { cs with type := pyStrip g } }
  | none =>
  match reSetFlags lchars with
  | some g =>
    { st with curSet := some { cs with flags := (pySplit g ",").map pyStrip } }
  | none =>
  match reSetElements lchars with
  | some g =>
    { st with setElements := st.setElements ++ filterElementTokens (findallQuotedBare g.toList) }
  | none =>
    let st :=
      if ¬ containsSubChars lchars "elements".toList &&
         ¬ startsWithChars "type".toList lchars &&
         ¬ startsWithChars "flags".toList lchars then
        { st with setElements := st.setElements ++ filterElementTokens (findallQuotedBare lchars) }
      else st
    if containsSubChars lchars "\x7d".toList then
      let finished := { cs with elements := st.setElements }
      let st :=
        match st.curTable with
        | some t => writeCurTable st (t.addSet finished)
        | none => st
      { st with inSetBlock := false, curSet := none }
    else st

/-- Handle one line of input (`line_number` is 1-based). -/
def processLine (st : TextState) (lineNumber : Nat) (originalLine : String) : TextState :=
  let line := pyStrip originalLine
  let lchars := line.toList
  if line = "" || startsWithChars "#".toList lchars then st
  else
  let st := { st with
    braceDepth := st.braceDepth + (countChar lchars '\x7b' : Int) - (countChar lchars '\x7d' : Int) }
  match reTable lchars with
  | some (family, name) => handleTableLine st family name lineNumber
  | none =>
  if (reSetDecl lchars).isSome && st.curTable.isSome && ¬ st.inSetBlock then
    match reSetDecl lchars, st.curTable with
    | some setName, some t =>
      { st with
        curSet := some { name := setName, table := t.name, family := t.family,
                         type := "unknown", line_number := lineNumber },
        inSetBlock := true,
        setElements := [] }
    | _, _ => st
  else
  match st.inSetBlock, st.curSet with
  | true, some cs => handleSetBlockLine st lchars cs
  | _, _ =>
  match reChain lchars, st.curTable with
  | some chainName, some t =>
    let c : Chain := { name := chainName, table := t.name, family := t.family,
                       line_number := lineNumber }
    let st := writeCurTable st (t.addChain c)
    { st with curChain := some chainName }
  | _, _ =>
  if st.curChain.isSome && startsWithChars "type".toList lchars then
    match reTypeLine lchars with
    | some (t, h, prio, pol) =>
      updateCurChain st (fun c =>
        let c := { c with type := some t, hook := some h, priority := some prio }
        match pol with
        | some p => { c with policy := p }
        | none => c)
    | none => st
  else
  if line = "\x7d" then
    if st.braceDepth = 1 then { st with curChain := none }
    else if st.braceDepth = 0 then { st with curTable := none, curStored := false }
    else st
  else
  match st.curChain, st.curTable with
  | some chainName, some t =>
    match parseTextRule originalLine t.name chainName t.family lineNumber with
    | some rule =>
      let rule := { rule with sets_referenced := dedupFirst (findAtRefs originalLine.toList) }
      let st := updateCurChain st (fun c => { c with rules := c.rules ++ [rule] })
      { st with result := { st.result with rules := st.result.rules ++ [rule] } }
    | none => st
  | _, _ => st

/-- `RuleParser.parse_text_hierarchical`. -/
def parseTextHierarchical (text : String) : ParseResult :=
  let lines := pySplit text "\n"
  (lines.foldl (fun (acc : TextState × Nat) line =>
    (processLine acc.1 (acc.2 + 1) line, acc.2 + 1)) ({}, 0)).1.result

/-- `RuleParser.parse_text`. -/
def parseText (text : String) : List Rule :=
  (parseTextHierarchical text).getAllRules

/-! ### Concrete instances used by the individual claims -/

/-- A featureless (hence all-matching) `jump` rule on the input chain. -/
def c1JumpRule : Rule := { action := "jump", chain := "input", line_number := 1 }

/-- A featureless `accept` rule on the input chain. -/
def c1AcceptRule : Rule := { action := "accept", chain := "input", line_number := 2 }

/-- An unrestricted inbound query (matches featureless rules). -/
def c1Query : Query := {}

/-- The JSON input of the repository test `test_nftables_format`:
one rule object with a `dport` match and an `accept` verdict. -/
def c2Json : Json :=
  .obj [("nftables", .arr [
    .obj [("rule", .obj [
      ("chain", .str "input"),
      ("table", .str "filter"),
      ("expr", .arr [
        .obj [("match", .obj [
          ("left", .obj [("payload", .obj [("field", .str "dport")])]),
          ("right", .num 80)])],
        .obj [("accept", .null)]])])]])]

/-- The claim's literal two-physical-line text: everything up to the
first rule shares the line with the `table` declaration. -/
def c3ClaimText : String :=
  "table inet filter \x7b chain input \x7b type filter hook input priority 0; policy drop; tcp dport 22 accept \n tcp dport 80 accept \x7d \x7d"

/-- The same configuration with each declaration on its own physical
line (as in the repository test `test_parse_single_table`). -/
def c3AmendedText : String :=
  "table inet filter \x7b\nchain input \x7b\ntype filter hook input priority 0; policy drop;\ntcp dport 22 accept\ntcp dport 80 accept\n\x7d\n\x7d"

/-- Earlier, more general rule: the /24 network, `accept`, line 1. -/
def c7General : Rule :=
  { action := "accept", chain := "input", source := some "192.168.1.0/24", line_number := 1 }

/-- Later, more specific rule: one host of that network, `accept`, line 2. -/
def c7Specific : Rule :=
  { action := "accept", chain := "input", source := some "192.168.1.10", line_number := 2 }

/-- The specific rule with a differing action. -/
def c7SpecificDrop : Rule :=
  { action := "drop", chain := "input", source := some "192.168.1.10", line_number := 2 }

/-- Earlier matching `accept` rule of the first-match-wins scenario. -/
def c4AcceptRule : Rule :=
  { action := "accept", chain := "input", dport := some "80",
    protocol := some "tcp", line_number := 1 }

/-- Later matching `drop` rule of the first-match-wins scenario. -/
def c4DropRule : Rule :=
  { action := "drop", chain := "input", dport := some "80",
    protocol := some "tcp", line_number := 2 }

/-- A query matching both rules of the scenario. -/
def c4Query : Query := { dst_port := some 80, protocol := some "tcp" }

/-- A rule object whose `chain` value is not a string, so its
construction raises inside `_parse_json_rule` and it is skipped. -/
def c8BadRuleObj : Json := .obj [("chain", .num 5)]

/-- A minimal well-formed rule object. -/
def c8GoodRuleObj : Json := .obj [("expr", .arr [.obj [("accept", .null)]])]

/-- The rule `_parse_json_rule` builds from `c8GoodRuleObj` as the
first successfully parsed object. -/
def c8GoodRule : Rule :=
  { action := "accept", chain := "input", table := "filter", line_number := 1,
    raw := some "\x7b\"expr\": [\x7b\"accept\": null\x7d]\x7d" }

/-! ## Helper lemmas about the evaluator -/

theorem detectConflicts_matched_rules (ps : List (Rule × Rule)) (res : EvaluationResult) :
    (detectConflicts ps res).matched_rules = res.matched_rules := by
  induction ps generalizing res with
  | nil => rfl
  | cons p rest ih =>
    obtain ⟨r1, r2⟩ := p
    simp only [detectConflicts]
    split
    · rw [ih]
    · rw [ih]

theorem detectConflicts_conflicts_length (ps : List (Rule × Rule)) (res : EvaluationResult) :
    res.conflicts.length ≤ (detectConflicts ps res).conflicts.length := by
  induction ps generalizing res with
  | nil => exact Nat.le_refl _
  | cons p rest ih =>
    obtain ⟨r1, r2⟩ := p
    simp only [detectConflicts]
    split
    · refine Nat.le_trans ?_ (ih _)
      simp
    · exact ih _

theorem detectConflicts_conflicts_ne_of (ps : List (Rule × Rule)) (res : EvaluationResult)
    (h : res.conflicts ≠ []) : (detectConflicts ps res).conflicts ≠ [] := by
  intro hnil
  have hlen := detectConflicts_conflicts_length ps res
  rw [hnil] at hlen
  simp only [List.length_nil, Nat.le_zero] at hlen
  exact h (List.eq_nil_of_length_eq_zero hlen)

theorem detectConflicts_mem_ne (ps : List (Rule × Rule)) (res : EvaluationResult)
    (r1 r2 : Rule) (hmem : (r1, r2) ∈ ps) (hne : r1.action ≠ r2.action) :
    (detectConflicts ps res).conflicts ≠ [] := by
  induction ps generalizing res with
  | nil => cases hmem
  | cons p rest ih =>
    obtain ⟨a, b⟩ := p
    rcases List.mem_cons.mp hmem with heq | htail
    · obtain ⟨ha, hb⟩ := Prod.mk.injEq .. ▸ heq
      subst ha; subst hb
      simp only [detectConflicts, if_pos hne]
      exact detectConflicts_conflicts_ne_of rest _ (by simp)
    · simp only [detectConflicts]
      split
      · exact ih _ htail
      · exact ih _ htail

theorem assignVerdict_matched_rules (m : List Rule) (la : Option String)
    (res : EvaluationResult) : (assignVerdict m la res).matched_rules = m := by
  simp only [assignVerdict]
  split
  · split <;> simp [detectConflicts_matched_rules]
  · split
    · split <;> simp [detectConflicts_matched_rules]
    · split <;> simp [detectConflicts_matched_rules]

theorem assignVerdict_verdict_cases (m : List Rule) (la : Option String)
    (res : EvaluationResult) :
    (assignVerdict m la res).verdict = "ALLOW" ∨
    (assignVerdict m la res).verdict = "BLOCK" ∨
    (assignVerdict m la res).verdict = "NO_MATCH" := by
  simp only [assignVerdict]
  split
  · left; rfl
  · split
    · right; left; rfl
    · right; right; rfl

theorem adjacentPairs_mem_length (m : List Rule) (p : Rule × Rule)
    (hmem : p ∈ adjacentPairs m) : 1 < m.length := by
  match m with
  | [] => simp [adjacentPairs] at hmem
  | [x] => simp [adjacentPairs] at hmem
  | x :: y :: rest => simp

theorem assignVerdict_conflicts_ne (m : List Rule) (la : Option String)
    (res : EvaluationResult) (r1 r2 : Rule)
    (hmem : (r1, r2) ∈ adjacentPairs m) (hne : r1.action ≠ r2.action) :
    (assignVerdict m la res).conflicts ≠ [] := by
  have hlen : 1 < m.length := adjacentPairs_mem_length m (r1, r2) hmem
  have hdet :
      (detectConflicts (adjacentPairs m) { res with matched_rules := m }).conflicts ≠ [] :=
    detectConflicts_mem_ne _ _ r1 r2 hmem hne
  simp only [assignVerdict, if_pos hlen]
  split
  · simpa using hdet
  · split
    · simpa using hdet
    · simpa using hdet

theorem evaluate_of_scan (rules : List Rule) (q : Query) (ms : List Rule)
    (la : Option String) (h : scanRules q (relevantRules rules q) = (ms, la))
    (hne : ms ≠ []) :
    evaluate rules q =
      assignVerdict ms la { verdict := "NO_MATCH", explanation := "No matching rules found" } := by
  simp only [evaluate, h]
  cases ms with
  | nil => exact absurd rfl hne
  | cons x xs => rfl

theorem evaluate_verdict_cases (rules : List Rule) (q : Query) :
    (evaluate rules q).verdict = "ALLOW" ∨ (evaluate rules q).verdict = "BLOCK" ∨
    (evaluate rules q).verdict = "NO_MATCH" := by
  rcases hscan : scanRules q (relevantRules rules q) with ⟨ms, la⟩
  cases ms with
  | nil =>
    right; right
    simp [evaluate, hscan]
  | cons x xs =>
    rw [evaluate_of_scan rules q (x :: xs) la hscan (by simp)]
    exact assignVerdict_verdict_cases _ _ _

/-! ## Claim C1 -/

/-- C1 (counterexample): a query matching a `jump` rule and then an
`accept` rule produces a matched list of length 2 whose adjacent pair
has differing actions, yet the returned verdict is `ALLOW` (not
`CONFLICT`) and the explanation is the `accept` one — the verdict
assignment that follows conflict detection overwrites both. -/
theorem C1_counterexample :
    (evaluate [c1JumpRule, c1AcceptRule] c1Query).matched_rules.length = 2 ∧
    (evaluate [c1JumpRule, c1AcceptRule] c1Query).matched_rules.map Rule.action
      = ["jump", "accept"] ∧
    (evaluate [c1JumpRule, c1AcceptRule] c1Query).conflicts.length = 1 ∧
    (evaluate [c1JumpRule, c1AcceptRule] c1Query).verdict = "ALLOW" ∧
    (evaluate [c1JumpRule, c1AcceptRule] c1Query).verdict ≠ "CONFLICT" ∧
    (evaluate [c1JumpRule, c1AcceptRule] c1Query).explanation = "Traffic allowed by rule 2" := by
  refine ⟨by decide, by decide, by decide, by decide, by decide, by decide⟩

/-- C1 (amended): a differing adjacent pair of matched rules does
record a `Conflict` (so `conflicts` is non-empty), and conflict
detection momentarily sets the verdict to `CONFLICT`, but the verdict
assignment that runs afterwards always overwrites verdict and
explanation from the last recorded action, so the returned verdict is
always `ALLOW`, `BLOCK` or `NO_MATCH` — never `CONFLICT`. -/
theorem C1_conflict_verdict_overwritten :
    (∀ (rules : List Rule) (q : Query), (evaluate rules q).verdict ≠ "CONFLICT") ∧
    (∀ (rules : List Rule) (q : Query) (r1 r2 : Rule),
      (r1, r2) ∈ adjacentPairs (evaluate rules q).matched_rules →
      r1.action ≠ r2.action →
      (evaluate rules q).conflicts ≠ []) := by
  constructor
  · intro rules q
    rcases evaluate_verdict_cases rules q with h | h | h <;> rw [h] <;> decide
  · intro rules q r1 r2 hmem hne
    rcases hscan : scanRules q (relevantRules rules q) with ⟨ms, la⟩
    cases ms with
    | nil =>
      rw [show evaluate rules q =
            { verdict := "NO_MATCH",
              explanation := "No rules matched for chain \x27" ++
                getChainForDirection q.direction ++ "\x27" }
          from by simp [evaluate, hscan]] at hmem
      simp [adjacentPairs] at hmem
    | cons x xs =>
      rw [evaluate_of_scan rules q (x :: xs) la hscan (by simp)] at hmem ⊢
      rw [assignVerdict_matched_rules] at hmem
      exact assignVerdict_conflicts_ne _ _ _ r1 r2 hmem hne

/-- C1 (witness): the amended theorem applied at the counterexample
input — the differing adjacent `jump`/`accept` pair yields a recorded
conflict, and the verdict is not `CONFLICT`. -/
theorem C1_witness :
    (c1JumpRule, c1AcceptRule) ∈
      adjacentPairs (evaluate [c1JumpRule, c1AcceptRule] c1Query).matched_rules ∧
    c1JumpRule.action ≠ c1AcceptRule.action ∧
    (evaluate [c1JumpRule, c1AcceptRule] c1Query).conflicts ≠ [] ∧
    (evaluate [c1JumpRule, c1AcceptRule] c1Query).verdict ≠ "CONFLICT" :=
  ⟨by decide, by decide,
   C1_conflict_verdict_overwritten.2 [c1JumpRule, c1AcceptRule] c1Query c1JumpRule c1AcceptRule
     (by decide) (by decide),
   C1_conflict_verdict_overwritten.1 [c1JumpRule, c1AcceptRule] c1Query⟩

/-! ## Helper lemmas about the scanning loop -/

theorem scanRules_none (q : Query) (rs ms : List Rule)
    (h : scanRules q rs = (ms, none)) : ms = [] := by
  induction rs generalizing ms with
  | nil =>
    have h2 : (([], none) : List Rule × Option String) = (ms, none) := h
    exact ((Prod.mk.injEq .. ▸ h2).1).symm
  | cons r rest ih =>
    simp only [scanRules] at h
    split at h
    · split at h
      · exact absurd (congrArg Prod.snd h) (by simp)
      · exact absurd (congrArg Prod.snd h) (by simp)
    · exact ih ms h

theorem scanRules_some (q : Query) (rs ms : List Rule) (a : String)
    (h : scanRules q rs = (ms, some a)) :
    ∃ pre lastRule, ms = pre ++ [lastRule] ∧ lastRule.action = a ∧
      ruleMatchesQuery lastRule q = true := by
  induction rs generalizing ms a with
  | nil =>
    have h2 : (([], none) : List Rule × Option String) = (ms, some a) := h
    exact absurd (congrArg Prod.snd h2) (by simp)
  | cons r rest ih =>
    simp only [scanRules] at h
    split at h
    case isTrue hm =>
      split at h
      case isTrue hjr =>
        rcases hr : scanRules q rest with ⟨ms', la'⟩
        rw [hr] at h
        obtain ⟨hms, hact⟩ := Prod.mk.injEq .. ▸ h
        cases la' with
        | none =>
          have hnil : ms' = [] := scanRules_none q rest ms' hr
          subst hnil
          refine ⟨[], r, by rw [← hms]; rfl, ?_, hm⟩
          exact Option.some.inj (by simpa using hact)
        | some a' =>
          have ha' : a' = a := Option.some.inj (by simpa using hact)
          obtain ⟨pre, lastRule, hsplit, hlast, hmatch⟩ := ih ms' a' hr
          refine ⟨r :: pre, lastRule, ?_, ha' ▸ hlast, hmatch⟩
          rw [← hms, hsplit]; rfl
      case isFalse hjr =>
        obtain ⟨hms, hact⟩ := Prod.mk.injEq .. ▸ h
        exact ⟨[], r, by rw [← hms]; rfl, Option.some.inj hact, hm⟩
    case isFalse hm =>
      exact ih ms a h

theorem assignVerdict_nonverdict (ms : List Rule) (res : EvaluationResult) (a : String)
    (ha : a = "counter" ∨ a = "log") :
    (assignVerdict ms (some a) res).verdict = "NO_MATCH" ∧
    (assignVerdict ms (some a) res).explanation = "Matched jump/return rules only" := by
  rcases ha with ha | ha <;> subst ha <;>
  simp only [assignVerdict] <;>
  rw [if_neg (by simp), if_neg (by simp)] <;>
  exact ⟨rfl, rfl⟩

/-! ## Claim C4 -/

/-- C4: scanning is first-match-wins — a matched rule whose action is
neither `jump` nor `return` stops the scan with just that rule, a
matched `jump`/`return` rule is collected and the scan continues, and
consequently two same-chain matching rules `accept` (earlier) then
`drop` (later) evaluate to `ALLOW` with only the earlier rule in
`matched_rules`. -/
theorem C4_first_match_wins :
    (∀ (q : Query) (r : Rule) (rest : List Rule),
      ruleMatchesQuery r q = true → r.action ≠ "jump" → r.action ≠ "return" →
      scanRules q (r :: rest) = ([r], some r.action)) ∧
    (∀ (q : Query) (r : Rule) (rest : List Rule),
      ruleMatchesQuery r q = true → (r.action = "jump" ∨ r.action = "return") →
      (scanRules q (r :: rest)).1 = r :: (scanRules q rest).1) ∧
    (∀ (rules : List Rule) (q : Query) (r1 r2 : Rule) (rest : List Rule),
      relevantRules rules q = r1 :: r2 :: rest →
      ruleMatchesQuery r1 q = true → ruleMatchesQuery r2 q = true →
      r1.action = "accept" → r2.action = "drop" →
      (evaluate rules q).verdict = "ALLOW" ∧ (evaluate rules q).matched_rules = [r1]) := by
  refine ⟨?_, ?_, ?_⟩
  · intro q r rest hm hj hr
    simp [scanRules, hm, hj, hr]
  · intro q r rest hm hjr
    rcases hrest : scanRules q rest with ⟨ms', la'⟩
    have hb : (r.action = "jump" || r.action = "return") = true := by
      rcases hjr with h | h <;> simp [h]
    simp [scanRules, hm, hb, hrest]
  · intro rules q r1 r2 rest hrel hm1 hm2 ha1 ha2
    have hscan : scanRules q (relevantRules rules q) = ([r1], some "accept") := by
      rw [hrel, ← ha1]
      simp [scanRules, hm1, ha1]
    rw [evaluate_of_scan rules q [r1] (some "accept") hscan (by simp)]
    refine ⟨?_, assignVerdict_matched_rules _ _ _⟩
    simp [assignVerdict]

/-- C4 (witness): the theorem applied at concrete rules — an `accept`
dport-80 rule before a `drop` dport-80 rule, and a matching query. -/
theorem C4_witness :
    scanRules c4Query [c4AcceptRule] = ([c4AcceptRule], some "accept") ∧
    (evaluate [c4AcceptRule, c4DropRule] c4Query).verdict = "ALLOW" ∧
    (evaluate [c4AcceptRule, c4DropRule] c4Query).matched_rules = [c4AcceptRule] := by
  have h1 := C4_first_match_wins.1 c4Query c4AcceptRule []
    (by decide) (by decide) (by decide)
  have h2 := C4_first_match_wins.2.2 [c4AcceptRule, c4DropRule] c4Query
    c4AcceptRule c4DropRule [] (by decide) (by decide) (by decide) (by decide) (by decide)
  exact ⟨h1, h2.1, h2.2⟩

/-! ## Claim C10 -/

/-- C10: when the scan's last recorded action is `counter` or `log`
(a matched non-verdict, non-flow-control rule, which stops the scan),
the rule is the last element of `matched_rules` and the result is
`NO_MATCH` with explanation "Matched jump/return rules only", exactly
as if only jump/return rules had matched. -/
theorem C10_nonverdict_no_match :
    ∀ (rules : List Rule) (q : Query) (ms : List Rule) (a : String),
      scanRules q (relevantRules rules q) = (ms, some a) →
      a = "counter" ∨ a = "log" →
      (evaluate rules q).verdict = "NO_MATCH" ∧
      (evaluate rules q).explanation = "Matched jump/return rules only" ∧
      (evaluate rules q).matched_rules = ms ∧
      ∃ pre lastRule, ms = pre ++ [lastRule] ∧ lastRule.action = a ∧
        ruleMatchesQuery lastRule q = true := by
  intro rules q ms a hscan ha
  obtain ⟨pre, lastRule, hsplit, hlast, hmatch⟩ := scanRules_some q _ ms a hscan
  have hne : ms ≠ [] := by
    rw [hsplit]; simp
  rw [evaluate_of_scan rules q ms (some a) hscan hne]
  obtain ⟨hv, he⟩ := assignVerdict_nonverdict ms
    { verdict := "NO_MATCH", explanation := "No matching rules found" } a ha
  exact ⟨hv, he, assignVerdict_matched_rules _ _ _,
    pre, lastRule, hsplit, hlast, hmatch⟩

/-- C10 (witness): the theorem applied to a single matching `counter`
rule. -/
theorem C10_witness :
    (evaluate [{ action := "counter", chain := "input", line_number := 1 }] {}).verdict
      = "NO_MATCH" ∧
    (evaluate [{ action := "counter", chain := "input", line_number := 1 }] {}).explanation
      = "Matched jump/return rules only" := by
  have h := C10_nonverdict_no_match
    [{ action := "counter", chain := "input", line_number := 1 }] {}
    [{ action := "counter", chain := "input", line_number := 1 }] "counter"
    (by decide) (Or.inl rfl)
  exact ⟨h.1, h.2.1⟩

/-! ## Claim C5 -/

/-- C5: the matcher predicates are total and fail-closed — the
`except ValueError` wrappers map every raise of the modelled bodies
to `false` and every normal result to itself, `protocol_matches`
cannot raise at all, and concrete malformed address/CIDR/port
literals all yield `false`. -/
theorem C5_matchers_total :
    (∀ pi ri : Option String, ipMatchesExc pi ri = .error () → ipMatches pi ri = false) ∧
    (∀ (pi ri : Option String) (b : Bool), ipMatchesExc pi ri = .ok b → ipMatches pi ri = b) ∧
    (∀ (pp : Option Int) (rp : Option String),
      portMatchesExc pp rp = .error () → portMatches pp rp = false) ∧
    (∀ (pp : Option Int) (rp : Option String) (b : Bool),
      portMatchesExc pp rp = .ok b → portMatches pp rp = b) ∧
    (∀ pp rp : Option String, protocolMatches pp rp = true ∨ protocolMatches pp rp = false) ∧
    ipMatches (some "999.1.2.3") (some "10.0.0.0/8") = false ∧
    ipMatches (some "1.2.3.4") (some "10.0.0.0/33") = false ∧
    ipMatches (some "1.2.3.4") (some "not-an-ip") = false ∧
    portMatches (some 80) (some "8o") = false ∧
    portMatches (some 80) (some "80-443-9") = false := by
  refine ⟨?_, ?_, ?_, ?_, ?_, by decide, by decide, by decide, by decide, by decide⟩
  · intro pi ri h
    simp [ipMatches, h]
  · intro pi ri b h
    simp [ipMatches, h]
  · intro pp rp h
    simp [portMatches, h]
  · intro pp rp b h
    simp [portMatches, h]
  · intro pp rp
    exact Bool.eq_false_or_eq_true (protocolMatches pp rp)

/-- C5 (witness): the fail-closed clauses applied at malformed
concrete literals. -/
theorem C5_witness :
    ipMatchesExc (some "999.1.2.3") (some "10.0.0.0/8") = .error () ∧
    ipMatches (some "999.1.2.3") (some "10.0.0.0/8") = false ∧
    portMatchesExc (some 80) (some "8o") = .error () ∧
    portMatches (some 80) (some "8o") = false :=
  ⟨rfl,
   C5_matchers_total.1 (some "999.1.2.3") (some "10.0.0.0/8") rfl,
   rfl,
   C5_matchers_total.2.2.1 (some 80) (some "8o") rfl⟩

/-! ## Helper lemmas about the IPv4 fragment -/

theorem parseOctet_le (s : String) (v : Nat) (h : parseOctet s = some v) : v ≤ 255 := by
  simp only [parseOctet] at h
  split_ifs at h
  all_goals injection h with hv
  all_goals omega

theorem ipv4FromString_lt (s : String) (a : Nat) (h : ipv4FromString s = some a) :
    a < 2 ^ 32 := by
  unfold ipv4FromString at h
  split at h
  case _ =>
    rename_i s1 s2 s3 s4 _
    rcases hA : parseOctet s1 with _ | va
    · simp [hA] at h
    rcases hB : parseOctet s2 with _ | vb
    · simp [hA, hB] at h
    rcases hC : parseOctet s3 with _ | vc
    · simp [hA, hB, hC] at h
    rcases hD : parseOctet s4 with _ | vd
    · simp [hA, hB, hC, hD] at h
    simp [hA, hB, hC, hD] at h
    have hva := parseOctet_le s1 va hA
    have hvb := parseOctet_le s2 vb hB
    have hvc := parseOctet_le s3 vc hC
    have hvd := parseOctet_le s4 vd hD
    omega
  case _ =>
    exact absurd h (by simp)

theorem ipPrefixOfMaskInt_le (n p : Nat) (h : ipPrefixOfMaskInt n = some p) : p ≤ 32 := by
  simp only [ipPrefixOfMaskInt] at h
  split_ifs at h
  all_goals injection h with hv
  all_goals omega

theorem makeNetmask_le (s : String) (p : Nat) (h : makeNetmask s = some p) : p ≤ 32 := by
  simp only [makeNetmask] at h
  split_ifs at h
  all_goals try (injection h with hv; omega)
  split at h
  case _ =>
    rename_i n _
    split at h
    case _ =>
      rename_i q hq
      exact (Option.some.inj h) ▸ ipPrefixOfMaskInt_le n q hq
    case _ =>
      exact ipPrefixOfMaskInt_le _ p h
  case _ =>
    exact absurd h (by simp)

theorem ipNetworkFromString_spec (s : String) (net plen : Nat)
    (h : ipNetworkFromString s = some (net, plen)) :
    plen ≤ 32 ∧ net % 2 ^ (32 - plen) = 0 ∧ net < 2 ^ 32 := by
  unfold ipNetworkFromString at h
  split at h
  case _ =>
    rename_i s1 _
    rcases haddr : ipv4FromString s1 with _ | addr
    · simp [haddr] at h
    simp [haddr] at h
    obtain ⟨hnet, hplen⟩ := h
    subst hplen
    subst hnet
    exact ⟨by omega, by simp [Nat.mod_one], ipv4FromString_lt s1 _ haddr⟩
  case _ =>
    rename_i s1 m _
    rcases haddr : ipv4FromString s1 with _ | addr
    · simp [haddr] at h
    rcases hmask : makeNetmask m with _ | p
    · simp [haddr, hmask] at h
    simp [haddr, hmask] at h
    obtain ⟨hnet, hplen⟩ := h
    subst hplen
    refine ⟨makeNetmask_le m _ hmask, ?_, ?_⟩
    · rw [← hnet]
      simp only [maskAddr]
      exact Nat.mul_mod_left _ _
    · rw [← hnet]
      simp only [maskAddr]
      exact Nat.lt_of_le_of_lt (Nat.div_mul_le_self _ _) (ipv4FromString_lt s1 addr haddr)
  case _ =>
    exact absurd h (by simp)

theorem maskAddr_eq_iff (a net k : Nat) (hk : 0 < k) (hnet : net % k = 0) :
    a / k * k = net ↔ a / k = net / k := by
  constructor
  · intro h
    rw [← h, Nat.mul_div_cancel _ hk]
  · intro h
    rw [h, Nat.div_mul_cancel (Nat.dvd_of_mod_eq_zero hnet)]

/-! ## Claim C6 -/

/-- C6: for a rule value containing `/` that parses as a network,
`ip_matches` holds on a well-formed candidate exactly when the
candidate's prefix bits agree with the network's (CIDR membership);
a `/32` network matches exactly its one address, a `/0` network
matches every address, and a rule value without `/` is an exact
address-equality test. -/
theorem C6_cidr_semantics :
    (∀ (x rv : String) (a net plen : Nat),
      containsSub rv "/" = true →
      ipNetworkFromString rv = some (net, plen) →
      ipv4FromString x = some a →
      ((ipMatches (some x) (some rv) = true ↔
          a / 2 ^ (32 - plen) = net / 2 ^ (32 - plen)) ∧
       (plen = 32 → (ipMatches (some x) (some rv) = true ↔ a = net)) ∧
       (plen = 0 → ipMatches (some x) (some rv) = true))) ∧
    (∀ (x rv : String) (a b : Nat),
      containsSub rv "/" = false →
      ipv4FromString rv = some b →
      ipv4FromString x = some a →
      (ipMatches (some x) (some rv) = true ↔ a = b)) := by
  constructor
  · intro x rv a net plen hslash hnet hx
    obtain ⟨hple, hmod, hlt⟩ := ipNetworkFromString_spec rv net plen hnet
    have halt : a < 2 ^ 32 := ipv4FromString_lt x a hx
    have hmain : ipMatches (some x) (some rv) = (maskAddr a plen == net) := by
      simp [ipMatches, ipMatchesExc, hx, hslash, hnet]
    have hiff : maskAddr a plen = net ↔ a / 2 ^ (32 - plen) = net / 2 ^ (32 - plen) :=
      maskAddr_eq_iff a net _ (Nat.pos_pow_of_pos _ (by omega)) hmod
    refine ⟨?_, ?_, ?_⟩
    · rw [hmain, beq_iff_eq]
      exact hiff
    · intro h32
      subst h32
      rw [hmain, beq_iff_eq]
      simp [maskAddr]
    · intro h0
      subst h0
      rw [hmain, beq_iff_eq]
      have ha0 : maskAddr a 0 = 0 := by
        simp only [maskAddr, Nat.sub_zero]
        rw [Nat.div_eq_of_lt halt]
        simp
      have hnet0 : net = 0 := by
        have h1 : net % 2 ^ 32 = net := Nat.mod_eq_of_lt hlt
        have h2 : net % 2 ^ (32 - 0) = 0 := hmod
        simp only [Nat.sub_zero] at h2
        omega
      rw [ha0, hnet0]
  · intro x rv a b hslash hb hx
    simp [ipMatches, ipMatchesExc, hx, hslash, hb, beq_iff_eq]

/-- C6 (witness): membership, `/32` and `/0` boundaries and exact
equality at concrete addresses. -/
theorem C6_witness :
    ipMatches (some "192.168.1.10") (some "192.168.1.0/24") = true ∧
    ipMatches (some "10.1.2.3") (some "10.1.2.3/32") = true ∧
    ipMatches (some "9.9.9.9") (some "0.0.0.0/0") = true ∧
    ipMatches (some "1.2.3.4") (some "1.2.3.4") = true :=
  ⟨((C6_cidr_semantics.1 "192.168.1.10" "192.168.1.0/24" 3232235786 3232235776 24
      (by decide) (by decide) (by decide)).1).mpr (by decide),
   ((C6_cidr_semantics.1 "10.1.2.3" "10.1.2.3/32" 167838211 167838211 32
      (by decide) (by decide) (by decide)).2.1 rfl).mpr rfl,
   (C6_cidr_semantics.1 "9.9.9.9" "0.0.0.0/0" 151587081 0 0
      (by decide) (by decide) (by decide)).2.2 rfl,
   (C6_cidr_semantics.2 "1.2.3.4" "1.2.3.4" 16909060 16909060
      (by decide) (by decide) (by decide)).mpr rfl⟩

/-! ## Helper lemmas about `Query` validation -/

theorem mkQueryDir_ok (si di : Option String) (sp dp : Option Int)
    (proto : Option String) (dir : String) (q : Query)
    (h : mkQuery.mkQueryDir si di sp dp proto dir = .ok q) :
    q = ⟨si, di, sp, dp, proto, dir⟩ := by
  simp only [mkQuery.mkQueryDir] at h
  split_ifs at h
  all_goals exact (Except.ok.inj h).symm

theorem mkQueryProto_ok (si di : Option String) (sp dp : Option Int)
    (proto : Option String) (dir : String) (q : Query)
    (h : mkQuery.mkQueryProto si di sp dp proto dir = .ok q) :
    q = ⟨si, di, sp, dp, proto.map pyLower, dir⟩ := by
  cases proto with
  | none => exact mkQueryDir_ok si di sp dp none dir q h
  | some v =>
    simp only [mkQuery.mkQueryProto] at h
    split_ifs at h
    all_goals exact mkQueryDir_ok si di sp dp (some (pyLower v)) dir q h

theorem mkQueryPorts_ok (si di : Option String) (sp dp : Option Int)
    (proto : Option String) (dir : String) (q : Query)
    (h : mkQuery.mkQueryPorts si di sp dp proto dir = .ok q) :
    mkQuery.mkQueryProto si di sp dp proto dir = .ok q := by
  cases dp with
  | none => exact h
  | some p =>
    simp only [mkQuery.mkQueryPorts] at h
    split_ifs at h
    all_goals exact h

theorem mkQuery_ok_ports (si di : Option String) (sp dp : Option Int)
    (proto : Option String) (dir : String) (q : Query)
    (h : mkQuery si di sp dp proto dir = .ok q) :
    mkQuery.mkQueryPorts si di sp dp proto dir = .ok q := by
  cases sp with
  | none => exact h
  | some p =>
    simp only [mkQuery] at h
    split_ifs at h
    all_goals exact h

theorem mkQueryPorts_error_of (si di : Option String) (sp dp : Option Int)
    (proto : Option String) (dir : String)
    (h : ∃ e, mkQuery.mkQueryProto si di sp dp proto dir = .error e) :
    ∃ e, mkQuery.mkQueryPorts si di sp dp proto dir = .error e := by
  cases dp with
  | none => exact h
  | some p =>
    by_cases hp : (p < 1 || p > 65535) = true
    · exact ⟨"dst_port out of range 1-65535", by
        simp only [mkQuery.mkQueryPorts]
        rw [if_pos hp]⟩
    · obtain ⟨e, he⟩ := h
      exact ⟨e, by
        simp only [mkQuery.mkQueryPorts]
        rw [if_neg hp]
        exact he⟩

theorem mkQuery_error_of (si di : Option String) (sp dp : Option Int)
    (proto : Option String) (dir : String)
    (h : ∃ e, mkQuery.mkQueryPorts si di sp dp proto dir = .error e) :
    ∃ e, mkQuery si di sp dp proto dir = .error e := by
  cases sp with
  | none => exact h
  | some p =>
    by_cases hp : (p < 1 || p > 65535) = true
    · exact ⟨"src_port out of range 1-65535", by
        simp only [mkQuery]
        rw [if_pos hp]⟩
    · obtain ⟨e, he⟩ := h
      exact ⟨e, by
        simp only [mkQuery]
        rw [if_neg hp]
        exact he⟩

/-! ## Claim C9 -/

/-- C9: `Query` construction fails with a validation error whenever a
given port lies outside `1..65535` or a given protocol is not one of
`{tcp, udp, icmp, any}` after lower-casing; on success nothing is
coerced — the stored ports and addresses are the given ones, the
stored protocol is the lower-cased input — and the all-absent query
is accepted. -/
theorem C9_query_validation :
    (∀ (si di : Option String) (sp dp : Option Int) (proto : Option String)
        (dir : String) (p : Int),
      sp = some p → p < 1 ∨ 65535 < p →
      ∃ e, mkQuery si di sp dp proto dir = .error e) ∧
    (∀ (si di : Option String) (sp dp : Option Int) (proto : Option String)
        (dir : String) (p : Int),
      dp = some p → p < 1 ∨ 65535 < p →
      ∃ e, mkQuery si di sp dp proto dir = .error e) ∧
    (∀ (si di : Option String) (sp dp : Option Int) (v : String) (dir : String),
      (["tcp", "udp", "icmp", "any"].contains (pyLower v)) = false →
      ∃ e, mkQuery si di sp dp (some v) dir = .error e) ∧
    (∀ (si di : Option String) (sp dp : Option Int) (proto : Option String)
        (dir : String) (q : Query),
      mkQuery si di sp dp proto dir = .ok q →
      q.src_ip = si ∧ q.dst_ip = di ∧ q.src_port = sp ∧ q.dst_port = dp ∧
      q.protocol = proto.map pyLower ∧ q.direction = dir) ∧
    (∃ q, mkQuery none none none none none "in" = .ok q) := by
  refine ⟨?_, ?_, ?_, ?_, ⟨_, rfl⟩⟩
  · intro si di sp dp proto dir p hsp hp
    subst hsp
    refine ⟨"src_port out of range 1-65535", ?_⟩
    simp only [mkQuery]
    rw [if_pos (by simp only [Bool.or_eq_true, decide_eq_true_eq]; omega)]
  · intro si di sp dp proto dir p hdp hp
    subst hdp
    refine mkQuery_error_of si di sp (some p) proto dir ?_
    refine ⟨"dst_port out of range 1-65535", ?_⟩
    simp only [mkQuery.mkQueryPorts]
    rw [if_pos (by simp only [Bool.or_eq_true, decide_eq_true_eq]; omega)]
  · intro si di sp dp v dir hv
    refine mkQuery_error_of si di sp dp (some v) dir ?_
    refine mkQueryPorts_error_of si di sp dp (some v) dir ?_
    refine ⟨"Invalid protocol: " ++ pyLower v, ?_⟩
    simp only [mkQuery.mkQueryProto]
    rw [if_pos (by rw [hv]; simp)]
  · intro si di sp dp proto dir q hok
    have hq : q = ⟨si, di, sp, dp, proto.map pyLower, dir⟩ :=
      mkQueryProto_ok si di sp dp proto dir q
        (mkQueryPorts_ok si di sp dp proto dir q
          (mkQuery_ok_ports si di sp dp proto dir q hok))
    subst hq
    exact ⟨rfl, rfl, rfl, rfl, rfl, rfl⟩

/-- C9 (witness): an out-of-range port and an unrecognized protocol
are rejected; an all-absent query is accepted. -/
theorem C9_witness :
    (∃ e, mkQuery none none (some 0) none none "in" = .error e) ∧
    (∃ e, mkQuery none none none (some 70000) none "in" = .error e) ∧
    (∃ e, mkQuery none none none none (some "GRE") "in" = .error e) ∧
    (∃ q, mkQuery none none none none none "in" = .ok q) :=
  ⟨C9_query_validation.1 none none (some 0) none none "in" 0 rfl (Or.inl (by omega)),
   C9_query_validation.2.1 none none none (some 70000) none "in" 70000 rfl (Or.inr (by omega)),
   C9_query_validation.2.2.1 none none none none "GRE" "in" (by decide),
   C9_query_validation.2.2.2.2⟩

/-! ## Claim C2 -/

/-- C2: evaluation of the JSON front end at the repository's own test
input (`test_nftables_format`): the hierarchical parse does recover
the one rule into its flat `rules` list, but it never populates
`tables`, and `parse_json` — which returns `get_all_rules()` of the
built hierarchy — therefore returns the empty list instead of the
parsed rules, contradicting both the claim and the repository's
tests. -/
theorem C2_parse_json_loses_rules :
    (parseJsonHierarchical (.ok c2Json)).map (fun pr => pr.rules.length) = .ok 1 ∧
    (parseJsonHierarchical (.ok c2Json)).map (fun pr => pr.tables.length) = .ok 0 ∧
    parseJson (.ok c2Json) = .ok [] := by
  exact ⟨rfl, rfl, rfl⟩

/-! ## Claim C3 -/

set_option maxRecDepth 200000 in
/-- C3 (counterexample): parsing the claim's literal two-physical-line
text yields 0 rules, 1 table and 0 chains — not 2 rules, 1 chain and
policy `drop` — because the line-oriented parser recognizes only the
`table` declaration at the start of the first line and discards the
rest of that line. -/
theorem C3_counterexample :
    (parseText c3ClaimText).length = 0 ∧
    (parseTextHierarchical c3ClaimText).tables.length = 1 ∧
    (parseTextHierarchical c3ClaimText).tables.map (fun kt => kt.2.chains.length) = [0] := by
  exact ⟨by decide, by decide, by decide⟩

set_option maxRecDepth 200000 in
/-- C3 (amended): with each declaration of the same configuration on
its own physical line, the text front end yields exactly 2 rules,
1 table, 1 chain, and that chain has policy `drop`. -/
theorem C3_hierarchy_per_line :
    (parseText c3AmendedText).length = 2 ∧
    (parseTextHierarchical c3AmendedText).tables.length = 1 ∧
    (parseTextHierarchical c3AmendedText).tables.map
        (fun kt => kt.2.chains.map (fun kc => (kc.1, kc.2.policy))) = [[("input", "drop")]] ∧
    (parseText c3AmendedText).map (fun r => (r.dport, r.action, r.protocol))
      = [(some "22", "accept", some "tcp"), (some "80", "accept", some "tcp")] := by
  exact ⟨by decide, by decide, by decide, by decide⟩

/-! ## Claim C7 -/

/-- C7: the redundancy analyzer on the /24-`accept` rule (line 1)
followed by the same-chain host rule 192.168.1.10-`accept` (line 2)
returns exactly the one pair (line-1 rule shadowing line-2 rule); with
differing actions it returns no pair. -/
theorem C7_redundant_pair :
    findRedundantRules [c7General, c7Specific] = [(c7General, c7Specific)] ∧
    findRedundantRules [c7General, c7SpecificDrop] = [] := by
  exact ⟨by decide, by decide⟩

/-! ## Claim C8 -/

/-- C8 (counterexample): a well-formed JSON input whose top level is
an object without the required `"nftables"` key does not surface an
error — `parse_json_hierarchical` returns an empty `ParseResult`. -/
theorem C8_counterexample :
    parseJsonHierarchical (.ok (.obj [])) = .ok { tables := [], rules := [] } := by
  exact rfl

/-- C8 (amended): JSON parsing recovers locally — a failing rule
object is skipped (without consuming a line number) and the parse of
the remaining objects continues — and an invalid-JSON-syntax error
from `json.loads` propagates to the caller; but well-formed JSON
whose top-level object lacks the `"nftables"` key yields an empty
result without error, and only a non-container top-level value (for
example a number) raises, via the `TypeError` of its containment
test. -/
theorem C8_local_recovery_global_failure :
    parseJsonHierarchical (.error ()) = .error "JSONDecodeError" ∧
    (∀ fields : List (String × Json),
      (assocGet fields "nftables").isSome = false →
      parseJsonHierarchical (.ok (.obj fields)) = .ok { tables := [], rules := [] }) ∧
    parseJsonHierarchical (.ok (.arr [c8BadRuleObj, c8GoodRuleObj])) = .ok { rules := [c8GoodRule] } ∧
    parseJsonHierarchical (.ok (.num 5)) = .error "TypeError" := by
  refine ⟨rfl, ?_, rfl, rfl⟩
  intro fields hkey
  simp only [parseJsonHierarchical, pyContains, hkey]

/-- C8 (witness): the missing-key clause applied at a non-empty
object without an `"nftables"` key. -/
theorem C8_witness :
    (assocGet [("foo", Json.null)] "nftables").isSome = false ∧
    parseJsonHierarchical (.ok (.obj [("foo", Json.null)])) = .ok { tables := [], rules := [] } :=
  ⟨rfl, C8_local_recovery_global_failure.2.1 [("foo", Json.null)] rfl⟩

end NftablesAnalyzer
